import Mathlib

/-!
Verification of the fws (file-watch-server) core against its source.

The Go sources are shallowly embedded: every external effect (running a
shell command, stat-ing a file, removing a file, dialing SSH, writing to an
SCP stream) is resolved through an explicit oracle record, and each
translated function returns, besides its Go result, a trace of the effects
it performed, so that "step X did not run" is a provable statement.
-/

namespace Utils

/-- Whitespace predicate of Go's `unicode.IsSpace` restricted to the code
points it recognises in Latin-1 (`\t \n \v \f \r ' '` plus NEL and NBSP). -/
def goIsSpace (c : Char) : Bool :=
  c = ' ' || c = '\t' || c = '\n' || c = Char.ofNat 11 || c = Char.ofNat 12 ||
  c = '\r' || c = Char.ofNat 133 || c = Char.ofNat 160

/-- Go's `strings.TrimSpace`: drop leading and trailing whitespace. -/
def TrimSpace (s : String) : String :=
  String.mk (((s.data.dropWhile goIsSpace).reverse.dropWhile goIsSpace).reverse)

/-- Result of actually running one command line through `sh -c` with a
deadline: the combined output captured, whether the context deadline fired,
and the error `cmd.CombinedOutput` reported (non-zero exit etc.), if any.
This is the oracle consumed by `ExecuteCommand`. -/
structure RunResult where
  output : String
  deadlineExceeded : Bool
  failed : Option String
  deriving DecidableEq, Repr

/-- The error values `ExecuteCommand` can return (utils.go lines 55-61). -/
inductive CmdErr where
  | timedOut (timeout : Nat) (command : String)
  | cmdFailed (msg : String) (output : String)
  deriving DecidableEq, Repr

/-- utils.go `ExecuteCommand`: run the command with a timeout; if the
deadline fired return an empty output with a timeout error; otherwise on a
run error return the captured output with a failure error; else the output
with no error. `timeout` is in seconds. -/
def ExecuteCommand (command : String) (timeout : Nat) (r : RunResult) :
    String × Option CmdErr :=
  if r.deadlineExceeded then
    ("", some (CmdErr.timedOut timeout command))
  else
    match r.failed with
    | some msg => (r.output, some (CmdErr.cmdFailed msg r.output))
    | none => (r.output, none)

/-- utils.go `ExecuteCommands`: run each command whose trimmed text is
nonempty, in order, stopping at the first failure. The oracle `env` gives
each command line its run result. Returns the list of commands actually
executed (in order) and the first error, if any. -/
def ExecuteCommands (commands : List String) (timeout : Nat)
    (env : String → RunResult) : List String × Option CmdErr :=
  match commands with
  | [] => ([], none)
  | c :: rest =>
    if TrimSpace c = "" then
      ExecuteCommands rest timeout env
    else
      match (ExecuteCommand c timeout (env c)).2 with
      | some err => ([c], some err)
      | none =>
        let r := ExecuteCommands rest timeout env
        (c :: r.1, r.2)

/-- A command "succeeds" under the oracle when `ExecuteCommand` reports no
error for it. -/
def cmdOk (timeout : Nat) (env : String → RunResult) (c : String) : Bool :=
  (ExecuteCommand c timeout (env c)).2.isNone

/-- A command line is non-blank when trimming whitespace leaves text. -/
def nonBlank (c : String) : Bool :=
  decide (TrimSpace c ≠ "")

end Utils

namespace Watcher

/-- config.go `WatcherConfig` (the fields the watcher pipeline reads). -/
structure WatcherConfig where
  watchDirectory : String
  containerName : String
  containerPort : List String
  containerEnv : List String
  containerVolumes : List String
  preLoadCommands : List String
  postLoadCommands : List String
  restartPolicy : String
  deriving DecidableEq, Repr

/-- Oracle for the watcher's external effects: whether a path exists on
disk, the run result of each command line, and the outcome of `os.Remove`
on each path (`none` = removed successfully). -/
structure WatchWorld where
  fileExists : String → Bool
  env : String → Utils.RunResult
  removeErr : String → Option String

/-- The observable steps of one reconciliation cycle, in the order
`processTarball` reaches them. -/
inductive Phase where
  | checkExists
  | preLoad
  | load
  | stop
  | remove
  | start
  | postLoad
  | cleanup
  deriving DecidableEq, Repr

/-- The errors `processTarball` can return (each wraps the step's error,
mirroring the `fmt.Errorf("...: %w", err)` wrapping in watcher.go). -/
inductive ProcErr where
  | notExist (path : String)
  | preLoadFailed (e : Utils.CmdErr)
  | loadFailed (e : Utils.CmdErr)
  | startFailed (e : Utils.CmdErr)
  deriving DecidableEq, Repr

/-- watcher.go `executePreLoadCommands`: nothing to run on an empty hook
set, otherwise the sequential executor with a 5-minute budget. -/
def executePreLoadCommands (cfg : WatcherConfig) (w : WatchWorld) :
    List String × Option Utils.CmdErr :=
  if cfg.preLoadCommands.length = 0 then ([], none)
  else Utils.ExecuteCommands cfg.preLoadCommands (5 * 60) w.env

/-- watcher.go `executePostLoadCommands`. -/
def executePostLoadCommands (cfg : WatcherConfig) (w : WatchWorld) :
    List String × Option Utils.CmdErr :=
  if cfg.postLoadCommands.length = 0 then ([], none)
  else Utils.ExecuteCommands cfg.postLoadCommands (5 * 60) w.env

/-- watcher.go `loadDockerImage`: one `docker load -i` invocation with a
10-minute budget. -/
def loadDockerImage (tarballPath : String) (w : WatchWorld) :
    Option Utils.CmdErr :=
  let loadCmd := "docker load -i " ++ tarballPath
  (Utils.ExecuteCommand loadCmd (10 * 60) (w.env loadCmd)).2

/-- watcher.go `stopAndRemoveContainer`: stop then remove the named
container; both errors are logged at debug level and swallowed, and the
function always returns success. -/
def stopAndRemoveContainer (cfg : WatcherConfig) (w : WatchWorld) :
    List Phase × Option Utils.CmdErr :=
  let stopCmd := "docker stop " ++ cfg.containerName
  let _stopOut := Utils.ExecuteCommand stopCmd 30 (w.env stopCmd)
  let removeCmd := "docker rm " ++ cfg.containerName
  let _removeOut := Utils.ExecuteCommand removeCmd 30 (w.env removeCmd)
  ([Phase.stop, Phase.remove], none)

/-- watcher.go `extractImageNameFromTarball`: the image reference is
recovered from the managed container name. -/
def extractImageNameFromTarball (cfg : WatcherConfig) : String :=
  cfg.containerName

/-- watcher.go `buildDockerRunCommand`: accumulate the run command exactly
as the `strings.Builder` in the source does. -/
def buildDockerRunCommand (cfg : WatcherConfig) : String :=
  let cmd := "docker run -d"
  let cmd := cmd ++ " --name " ++ cfg.containerName
  let cmd :=
    if cfg.restartPolicy ≠ "" then cmd ++ " --restart " ++ cfg.restartPolicy
    else cmd
  let cmd := cfg.containerPort.foldl (fun acc port => acc ++ " -p " ++ port) cmd
  let cmd := cfg.containerEnv.foldl (fun acc env => acc ++ " -e " ++ env) cmd
  let cmd :=
    cfg.containerVolumes.foldl (fun acc volume => acc ++ " -v " ++ volume) cmd
  cmd ++ " " ++ extractImageNameFromTarball cfg

/-- Spec-side rendering of a repeated flag: one ` flag value` group per
configured value, in configuration order (used to state what the built run
command must contain). -/
def renderList (flag : String) : List String → String
  | [] => ""
  | x :: rest => flag ++ x ++ renderList flag rest

/-- watcher.go `startContainer`: issue the built run command once, with a
2-minute budget; returns the issued command line and the outcome. -/
def startContainer (cfg : WatcherConfig) (w : WatchWorld) :
    String × Option Utils.CmdErr :=
  let runCmd := buildDockerRunCommand cfg
  (runCmd, (Utils.ExecuteCommand runCmd (2 * 60) (w.env runCmd)).2)

/-- watcher.go `cleanupTarball`: `os.Remove` on the tarball path. -/
def cleanupTarball (w : WatchWorld) (tarballPath : String) : Option String :=
  w.removeErr tarballPath

/-- watcher.go `processTarball`: one reconciliation cycle. Pre-load hooks,
image load and container start abort the cycle with an error; stop/remove
of the prior container, post-load hooks and tarball cleanup are logged and
swallowed. Returns the phases reached, in order, and the cycle's result. -/
def processTarball (cfg : WatcherConfig) (w : WatchWorld)
    (tarballPath : String) : List Phase × Option ProcErr :=
  if w.fileExists tarballPath = false then
    ([Phase.checkExists], some (ProcErr.notExist tarballPath))
  else
    match (executePreLoadCommands cfg w).2 with
    | some e => ([Phase.checkExists, Phase.preLoad], some (ProcErr.preLoadFailed e))
    | none =>
      match loadDockerImage tarballPath w with
      | some e =>
        ([Phase.checkExists, Phase.preLoad, Phase.load], some (ProcErr.loadFailed e))
      | none =>
        let sr := stopAndRemoveContainer cfg w
        match (startContainer cfg w).2 with
        | some e =>
          ([Phase.checkExists, Phase.preLoad, Phase.load] ++ sr.1 ++ [Phase.start],
            some (ProcErr.startFailed e))
        | none =>
          let _postLoad := (executePostLoadCommands cfg w).2
          let _cleanup := cleanupTarball w tarballPath
          ([Phase.checkExists, Phase.preLoad, Phase.load] ++ sr.1 ++
            [Phase.start, Phase.postLoad, Phase.cleanup], none)

/-- Go's `strings.HasSuffix`: the second string is a suffix of the
first. -/
def goHasSuffix (s t : String) : Bool :=
  t.data.isSuffixOf s.data

/-- The `fsnotify.Op` bitmask, one flag per operation kind. -/
structure FileOp where
  create : Bool
  write : Bool
  remove : Bool
  rename : Bool
  chmod : Bool
  deriving DecidableEq, Repr

/-- An fsnotify event: the path and its operation mask. -/
structure FileEvent where
  name : String
  op : FileOp
  deriving DecidableEq, Repr

/-- watcher.go `handleFileEvent`: ignore paths without the `.tar` suffix;
on a create or write event, process the tarball (errors are logged and
swallowed). Returns the phases the cycle reached (`[]` = no action). -/
def handleFileEvent (cfg : WatcherConfig) (w : WatchWorld)
    (event : FileEvent) : List Phase :=
  if goHasSuffix event.name ".tar" = false then []
  else if event.op.create || event.op.write then
    (processTarball cfg w event.name).1
  else []

end Watcher

namespace Uploader

/-- Go's `%#o` formatting of a nonnegative integer: octal digits with a
leading `0`, except that zero itself prints as `0`. -/
def goAltOctal (n : Nat) : String :=
  if n = 0 then "0" else "0" ++ String.mk (Nat.toDigits 8 n)

/-- Go's `filepath.Base` (Unix): `.` for the empty path, strip trailing
slashes, keep the last component, `/` when only slashes remain. -/
def goBase (path : String) : String :=
  if path = "" then "."
  else
    let stripped := (path.data.reverse.dropWhile (· = '/')).reverse
    if stripped = [] then "/"
    else String.mk ((stripped.reverse.takeWhile (· ≠ '/')).reverse)

/-- Go's `filepath.Join` on two nonempty, already-clean components. -/
def goJoin (dir file : String) : String :=
  if dir = "" then file else dir ++ "/" ++ file

/-- The local file handed to `scpUpload`: its permission bits (the
`fileInfo.Mode().Perm()` value) and its raw bytes, one `Char` per byte. -/
structure ScpFile where
  perm : Nat
  content : String
  deriving DecidableEq, Repr

/-- Oracle for each fallible step of `scpUpload`, in source order:
`os.Open`, `Stat`, `NewSession`, `StdinPipe`, `Start`, the header write,
`io.Copy`, the end-marker write, and `session.Wait` (a non-zero remote
exit surfaces as a `Wait` error). `none` = the step succeeds. -/
structure ScpWorld where
  openErr : Option String
  statErr : Option String
  sessionErr : Option String
  stdinErr : Option String
  startErr : Option String
  writeHeaderErr : Option String
  copyErr : Option String
  writeMarkerErr : Option String
  waitErr : Option String
  deriving DecidableEq, Repr

/-- What `scpUpload` did to the session: the chunks written to the remote
peer's input stream, in order, whether the input side was closed, and
whether the remote peer was waited for. -/
structure ScpStream where
  chunks : List String
  closed : Bool
  waited : Bool
  deriving DecidableEq, Repr

/-- The errors `scpUpload` can return, one per fallible step. -/
inductive ScpErr where
  | openFailed (e : String)
  | statFailed (e : String)
  | sessionFailed (e : String)
  | stdinFailed (e : String)
  | startFailed (e : String)
  | headerFailed (e : String)
  | copyFailed (e : String)
  | markerFailed (e : String)
  | waitFailed (e : String)
  deriving DecidableEq, Repr

/-- uploader.go `scpUpload`: open and stat the local file, open a session
running `scp -t` at the joined remote path, write the `C<mode> <size>
<name>\n` header, stream the file bytes, write the single `\x00` end
marker, close the input side and wait for the remote peer. A failed write
contributes no chunk; every step's failure aborts with that step's
error. -/
def scpUpload (localPath : String) (remoteUploadPath : String) (f : ScpFile)
    (w : ScpWorld) : ScpStream × Option ScpErr :=
  match w.openErr with
  | some e => (⟨[], false, false⟩, some (ScpErr.openFailed e))
  | none =>
  match w.statErr with
  | some e => (⟨[], false, false⟩, some (ScpErr.statFailed e))
  | none =>
  let fileName := goBase localPath
  let remotePath := goJoin remoteUploadPath fileName
  match w.sessionErr with
  | some e => (⟨[], false, false⟩, some (ScpErr.sessionFailed e))
  | none =>
  let _scpCmd := "scp -t " ++ remotePath
  match w.stdinErr with
  | some e => (⟨[], false, false⟩, some (ScpErr.stdinFailed e))
  | none =>
  match w.startErr with
  | some e => (⟨[], false, false⟩, some (ScpErr.startFailed e))
  | none =>
  let header :=
    "C" ++ goAltOctal f.perm ++ " " ++ toString f.content.length ++ " " ++
      fileName ++ "\n"
  match w.writeHeaderErr with
  | some e => (⟨[], false, false⟩, some (ScpErr.headerFailed e))
  | none =>
  match w.copyErr with
  | some e => (⟨[header], false, false⟩, some (ScpErr.copyFailed e))
  | none =>
  match w.writeMarkerErr with
  | some e => (⟨[header, f.content], false, false⟩, some (ScpErr.markerFailed e))
  | none =>
  match w.waitErr with
  | some e =>
    (⟨[header, f.content, String.mk [Char.ofNat 0]], true, true⟩,
      some (ScpErr.waitFailed e))
  | none =>
    (⟨[header, f.content, String.mk [Char.ofNat 0]], true, true⟩, none)

/-- Every step of the SCP push succeeds under the oracle: no open/stat,
session, start or write error, and a zero remote exit. -/
def scpOk (w : ScpWorld) : Bool :=
  w.openErr.isNone && w.statErr.isNone && w.sessionErr.isNone &&
  w.stdinErr.isNone && w.startErr.isNone && w.writeHeaderErr.isNone &&
  w.copyErr.isNone && w.writeMarkerErr.isNone && w.waitErr.isNone

/-- The host-key callback `createSSHClient` installs in the client
configuration. -/
inductive HostKeyCallback where
  | knownHosts
  | insecureIgnoreHostKey
  deriving DecidableEq, Repr

/-- Oracle for `createSSHClient`: reading and parsing the private key,
whether the `known_hosts` file exists, the result of loading it, and the
result of dialing the server. `none` = the step succeeds. -/
structure SSHWorld where
  readKeyErr : Option String
  parseKeyErr : Option String
  knownHostsExists : Bool
  knownHostsLoadErr : Option String
  dialErr : Option String
  deriving DecidableEq, Repr

/-- The errors `createSSHClient` can return. -/
inductive SSHErr where
  | readKeyFailed (e : String)
  | parseKeyFailed (e : String)
  | dialFailed (e : String)
  deriving DecidableEq, Repr

/-- config.go `UploaderConfig` (the fields the uploader pipeline reads). -/
structure UploaderConfig where
  dockerBuildPath : String
  imageName : String
  imageTag : String
  tarballPath : String
  remoteHost : String
  remotePort : Nat
  remoteUser : String
  remoteKeyPath : String
  remoteUploadPath : String
  buildCommand : String
  preBuildCommands : List String
  postBuildCommands : List String
  deriving DecidableEq, Repr

/-- uploader.go `createSSHClient`: read and parse the private key when a
key path is configured; pick the host-key callback — the `known_hosts`
store when it exists and loads, otherwise `InsecureIgnoreHostKey` after a
logged warning; then dial. Returns the warnings logged and either the
callback the established session uses or the error. -/
def createSSHClient (cfg : UploaderConfig) (w : SSHWorld) :
    List String × Except SSHErr HostKeyCallback :=
  match (if cfg.remoteKeyPath ≠ "" then
          match w.readKeyErr with
          | some e => some (SSHErr.readKeyFailed e)
          | none =>
            match w.parseKeyErr with
            | some e => some (SSHErr.parseKeyFailed e)
            | none => none
        else none) with
  | some e => ([], Except.error e)
  | none =>
    let hk :=
      if w.knownHostsExists then
        match w.knownHostsLoadErr with
        | some _ =>
          (["Failed to load known_hosts, using insecure connection"],
            HostKeyCallback.insecureIgnoreHostKey)
        | none => ([], HostKeyCallback.knownHosts)
      else
        (["known_hosts file not found, using insecure connection"],
          HostKeyCallback.insecureIgnoreHostKey)
    match w.dialErr with
    | some e => (hk.1, Except.error (SSHErr.dialFailed e))
    | none => (hk.1, Except.ok hk.2)

/-- Oracle for the uploader pipeline's remaining effects: command runs,
`EnsureDir` and `os.Remove` outcomes, post-save file existence, the
generated timestamp, the local file's stat/content for SCP, and the
SSH/SCP step oracles. -/
structure UpWorld where
  env : String → Utils.RunResult
  ensureDirErr : String → Option String
  fileExists : String → Bool
  removeErr : String → Option String
  timestamp : String
  scpFile : ScpFile
  ssh : SSHWorld
  scp : ScpWorld

/-- The steps of one uploader run, in the order `Run` reaches them. -/
inductive UpPhase where
  | preBuild
  | build
  | createTar
  | upload
  | postBuild
  | cleanup
  deriving DecidableEq, Repr

/-- The errors `createTarball` can return. -/
inductive TarErr where
  | ensureDirFailed (e : String)
  | saveFailed (e : Utils.CmdErr)
  | notCreated (path : String)
  deriving DecidableEq, Repr

/-- The errors `uploadTarball` can return. -/
inductive UploadErr where
  | sshFailed (e : SSHErr)
  | scpFailed (e : ScpErr)
  deriving DecidableEq, Repr

/-- The errors `Run` can return, each wrapping its step's error. -/
inductive RunErr where
  | preBuildFailed (e : Utils.CmdErr)
  | buildFailed (e : Utils.CmdErr)
  | tarballFailed (e : TarErr)
  | uploadFailed (e : UploadErr)
  | postBuildFailed (e : Utils.CmdErr)
  deriving DecidableEq, Repr

/-- uploader.go `executePreBuildCommands`. -/
def executePreBuildCommands (cfg : UploaderConfig) (w : UpWorld) :
    List String × Option Utils.CmdErr :=
  if cfg.preBuildCommands.length = 0 then ([], none)
  else Utils.ExecuteCommands cfg.preBuildCommands (5 * 60) w.env

/-- uploader.go `executePostBuildCommands`. -/
def executePostBuildCommands (cfg : UploaderConfig) (w : UpWorld) :
    List String × Option Utils.CmdErr :=
  if cfg.postBuildCommands.length = 0 then ([], none)
  else Utils.ExecuteCommands cfg.postBuildCommands (5 * 60) w.env

/-- uploader.go `buildDockerImage`: the caller-supplied build command when
one is configured, otherwise the default `docker build` line; 15-minute
budget. -/
def buildDockerImage (cfg : UploaderConfig) (w : UpWorld) :
    Option Utils.CmdErr :=
  let buildCmd :=
    if cfg.buildCommand ≠ "" then cfg.buildCommand
    else
      "docker build -t " ++ cfg.imageName ++ ":" ++ cfg.imageTag ++ " " ++
        cfg.dockerBuildPath
  (Utils.ExecuteCommand buildCmd (15 * 60) (w.env buildCmd)).2

/-- The archive filename `createTarball` generates:
`{name}_{tag}_{timestamp}.tar`. -/
def tarballName (cfg : UploaderConfig) (w : UpWorld) : String :=
  cfg.imageName ++ "_" ++ cfg.imageTag ++ "_" ++ w.timestamp ++ ".tar"

/-- The archive path `createTarball` writes to: under `tarballPath` when
one is configured, otherwise the bare filename. -/
def tarballDest (cfg : UploaderConfig) (w : UpWorld) : String :=
  if cfg.tarballPath ≠ "" then goJoin cfg.tarballPath (tarballName cfg w)
  else tarballName cfg w

/-- The `docker save` command line `createTarball` issues. -/
def saveCmdOf (cfg : UploaderConfig) (w : UpWorld) : String :=
  "docker save " ++ cfg.imageName ++ ":" ++ cfg.imageTag ++ " -o " ++
    tarballDest cfg w

/-- uploader.go `createTarball`: generate the timestamped path, run one
`docker save` with a 10-minute budget, then verify the archive exists on
disk — a missing file is a failure even when the save command reported
success. -/
def createTarball (cfg : UploaderConfig) (w : UpWorld) :
    Except TarErr String :=
  let path := tarballDest cfg w
  match (if cfg.tarballPath ≠ "" then w.ensureDirErr cfg.tarballPath
         else none) with
  | some e => Except.error (TarErr.ensureDirFailed e)
  | none =>
    match (Utils.ExecuteCommand (saveCmdOf cfg w) (10 * 60)
        (w.env (saveCmdOf cfg w))).2 with
    | some e => Except.error (TarErr.saveFailed e)
    | none =>
      if w.fileExists path = false then Except.error (TarErr.notCreated path)
      else Except.ok path

/-- uploader.go `uploadTarball`: create the SSH client, then push the file
with `scpUpload`. -/
def uploadTarball (cfg : UploaderConfig) (w : UpWorld) (path : String) :
    Option UploadErr :=
  match (createSSHClient cfg w.ssh).2 with
  | Except.error e => some (UploadErr.sshFailed e)
  | Except.ok _ =>
    match (scpUpload path cfg.remoteUploadPath w.scpFile w.scp).2 with
    | some e => some (UploadErr.scpFailed e)
    | none => none

/-- uploader.go `cleanupTarball`: `os.Remove` on the archive path. -/
def cleanupTarball (w : UpWorld) (path : String) : Option String :=
  w.removeErr path

/-- uploader.go `Uploader.Run`: pre-build hooks, build, archive export,
upload and post-build hooks are each fatal; local archive cleanup failure
is logged and swallowed. Returns the steps reached, in order, and the
run's result. -/
def Run (cfg : UploaderConfig) (w : UpWorld) :
    List UpPhase × Option RunErr :=
  match (executePreBuildCommands cfg w).2 with
  | some e => ([UpPhase.preBuild], some (RunErr.preBuildFailed e))
  | none =>
  match buildDockerImage cfg w with
  | some e => ([UpPhase.preBuild, UpPhase.build], some (RunErr.buildFailed e))
  | none =>
  match createTarball cfg w with
  | Except.error e =>
    ([UpPhase.preBuild, UpPhase.build, UpPhase.createTar],
      some (RunErr.tarballFailed e))
  | Except.ok path =>
  match uploadTarball cfg w path with
  | some e =>
    ([UpPhase.preBuild, UpPhase.build, UpPhase.createTar, UpPhase.upload],
      some (RunErr.uploadFailed e))
  | none =>
  match (executePostBuildCommands cfg w).2 with
  | some e =>
    ([UpPhase.preBuild, UpPhase.build, UpPhase.createTar, UpPhase.upload,
      UpPhase.postBuild], some (RunErr.postBuildFailed e))
  | none =>
    let _cleanup := cleanupTarball w path
    ([UpPhase.preBuild, UpPhase.build, UpPhase.createTar, UpPhase.upload,
      UpPhase.postBuild, UpPhase.cleanup], none)

end Uploader

/-- A concrete uploader configuration used to evaluate the pipeline. -/
def sampleUpCfg : Uploader.UploaderConfig :=
  ⟨"./app", "web", "latest", "", "host", 22, "deploy", "", "/up", "", [], []⟩

/-- A concrete uploader world whose commands all succeed but whose export
leaves no archive on disk. -/
def sampleUpWorldMissing : Uploader.UpWorld :=
  ⟨fun _ => ⟨"", false, none⟩, fun _ => none, fun _ => false,
    fun _ => none, "20240101-000000", ⟨420, "x"⟩,
    ⟨none, none, true, none, none⟩,
    ⟨none, none, none, none, none, none, none, none, none⟩⟩

/-- A concrete uploader world in which everything succeeds except that the
remote SCP peer exits non-zero. -/
def sampleUpWorldUploadFail : Uploader.UpWorld :=
  ⟨fun _ => ⟨"", false, none⟩, fun _ => none, fun _ => true,
    fun _ => none, "20240101-000000", ⟨420, "x"⟩,
    ⟨none, none, true, none, none⟩,
    ⟨none, none, none, none, none, none, none, none, some "exit status 1"⟩⟩

section Theorems

open Utils Watcher Uploader

/-- C5: the sequential executor runs each non-blank command in list order
and stops at the first failing command, returning that command's failure;
when every non-blank command succeeds (in particular for the empty list
and for lists of only blank commands) it spawns exactly the non-blank
commands (none, for blank-only lists) and returns success. -/
theorem ExecuteCommands_runs_nonblank_failfast (commands : List String)
    (timeout : Nat) (env : String → Utils.RunResult) :
    match (commands.filter Utils.nonBlank).dropWhile
        (Utils.cmdOk timeout env) with
    | [] =>
      Utils.ExecuteCommands commands timeout env =
        (commands.filter Utils.nonBlank, none)
    | bad :: _ =>
      Utils.ExecuteCommands commands timeout env =
        ((commands.filter Utils.nonBlank).takeWhile
            (Utils.cmdOk timeout env) ++ [bad],
          (Utils.ExecuteCommand bad timeout (env bad)).2) := by
  induction commands with
  | nil => simp [Utils.ExecuteCommands]
  | cons c rest ih =>
    by_cases hb : Utils.TrimSpace c = ""
    · simpa [Utils.ExecuteCommands, hb, Utils.nonBlank, List.filter_cons]
        using ih
    · rcases he : (Utils.ExecuteCommand c timeout (env c)).2 with _ | err
      · have hok : Utils.cmdOk timeout env c = true := by
          simp [Utils.cmdOk, he]
        simp only [List.filter_cons, Utils.nonBlank, hb, ne_eq,
          not_false_eq_true, decide_True, if_true, List.dropWhile_cons, hok,
          List.takeWhile_cons]
        revert ih
        cases hd : (rest.filter Utils.nonBlank).dropWhile
            (Utils.cmdOk timeout env) with
        | nil =>
          intro ih
          simp [Utils.ExecuteCommands, hb, he, ih]
        | cons bad tl =>
          intro ih
          simp [Utils.ExecuteCommands, hb, he, ih]
      · have hok : Utils.cmdOk timeout env c = false := by
          simp [Utils.cmdOk, he]
        simp [Utils.ExecuteCommands, hb, he, Utils.nonBlank,
          List.filter_cons, List.dropWhile_cons, hok, List.takeWhile_cons]

/-- C10: a timed-out command returns the empty combined-output string with
the timeout failure — output captured before the deadline is discarded —
while a command that fails without timing out returns its captured
combined output alongside the failure. -/
theorem ExecuteCommand_timeout_discards_output (command : String)
    (timeout : Nat) (r : Utils.RunResult) :
    (r.deadlineExceeded = true →
      Utils.ExecuteCommand command timeout r =
        ("", some (Utils.CmdErr.timedOut timeout command))) ∧
    (r.deadlineExceeded = false → ∀ msg, r.failed = some msg →
      Utils.ExecuteCommand command timeout r =
        (r.output, some (Utils.CmdErr.cmdFailed msg r.output))) := by
  refine ⟨fun h => ?_, fun h msg hm => ?_⟩
  · simp [Utils.ExecuteCommand, h]
  · simp [Utils.ExecuteCommand, h, hm]

/-- Witness for C10: a run that captured output but hit the deadline
returns `""` with the timeout error; a plain non-zero exit keeps its
output. -/
theorem ExecuteCommand_timeout_discards_output_witness :
    Utils.ExecuteCommand "sleep 5" 1 ⟨"partial output", true, none⟩ =
      ("", some (Utils.CmdErr.timedOut 1 "sleep 5")) ∧
    Utils.ExecuteCommand "false" 60 ⟨"boom", false, some "exit status 1"⟩ =
      ("boom", some (Utils.CmdErr.cmdFailed "exit status 1" "boom")) :=
  ⟨(ExecuteCommand_timeout_discards_output "sleep 5" 1
      ⟨"partial output", true, none⟩).1 rfl,
    (ExecuteCommand_timeout_discards_output "false" 60
      ⟨"boom", false, some "exit status 1"⟩).2 rfl "exit status 1" rfl⟩

/-- C1: in a reconciliation cycle, a failure of the pre-load hook set, of
the image-load command, or of the container-start command makes
`processTarball` return an error before any later step runs; whereas with
those three steps succeeding the cycle succeeds for every world — in
particular when stop/remove of the prior container, the post-load hooks,
or the archive deletion fail — and after the start phase only the
post-load and cleanup phases run (no rollback of the new instance). -/
theorem processTarball_fatal_vs_bestEffort (cfg : Watcher.WatcherConfig)
    (w : Watcher.WatchWorld) (path : String) :
    (∀ e, w.fileExists path = true →
      (Watcher.executePreLoadCommands cfg w).2 = some e →
      Watcher.processTarball cfg w path =
        ([Watcher.Phase.checkExists, Watcher.Phase.preLoad],
          some (Watcher.ProcErr.preLoadFailed e))) ∧
    (∀ e, w.fileExists path = true →
      (Watcher.executePreLoadCommands cfg w).2 = none →
      Watcher.loadDockerImage path w = some e →
      Watcher.processTarball cfg w path =
        ([Watcher.Phase.checkExists, Watcher.Phase.preLoad,
          Watcher.Phase.load], some (Watcher.ProcErr.loadFailed e))) ∧
    (∀ e, w.fileExists path = true →
      (Watcher.executePreLoadCommands cfg w).2 = none →
      Watcher.loadDockerImage path w = none →
      (Watcher.startContainer cfg w).2 = some e →
      Watcher.processTarball cfg w path =
        ([Watcher.Phase.checkExists, Watcher.Phase.preLoad,
          Watcher.Phase.load, Watcher.Phase.stop, Watcher.Phase.remove,
          Watcher.Phase.start], some (Watcher.ProcErr.startFailed e))) ∧
    (w.fileExists path = true →
      (Watcher.executePreLoadCommands cfg w).2 = none →
      Watcher.loadDockerImage path w = none →
      (Watcher.startContainer cfg w).2 = none →
      Watcher.processTarball cfg w path =
        ([Watcher.Phase.checkExists, Watcher.Phase.preLoad,
          Watcher.Phase.load, Watcher.Phase.stop, Watcher.Phase.remove,
          Watcher.Phase.start, Watcher.Phase.postLoad,
          Watcher.Phase.cleanup], none)) := by
  refine ⟨fun e hex hpre => ?_, fun e hex hpre hload => ?_,
    fun e hex hpre hload hstart => ?_, fun hex hpre hload hstart => ?_⟩
  · simp [Watcher.processTarball, hex, hpre]
  · simp [Watcher.processTarball, hex, hpre, hload]
  · simp [Watcher.processTarball, Watcher.stopAndRemoveContainer, hex, hpre,
      hload, hstart]
  · simp [Watcher.processTarball, Watcher.stopAndRemoveContainer, hex, hpre,
      hload, hstart]

/-- Witness for C1: a concrete cycle in which the prior container's stop
and remove both fail, the post-load hook fails, and the archive deletion
fails, yet the cycle runs every phase and returns success. -/
theorem processTarball_fatal_vs_bestEffort_witness :
    Watcher.processTarball
      ⟨"/opt/docker-uploads", "web", ["8080:80"], [], [], ["echo pre"],
        ["badhook"], "unless-stopped"⟩
      ⟨fun _ => true,
        fun c =>
          if c = "docker stop web" then ⟨"", false, some "no such container"⟩
          else if c = "docker rm web" then ⟨"", false, some "no such container"⟩
          else if c = "badhook" then ⟨"", false, some "exit status 1"⟩
          else ⟨"ok", false, none⟩,
        fun _ => some "permission denied"⟩
      "/opt/docker-uploads/app.tar" =
      ([Watcher.Phase.checkExists, Watcher.Phase.preLoad, Watcher.Phase.load,
        Watcher.Phase.stop, Watcher.Phase.remove, Watcher.Phase.start,
        Watcher.Phase.postLoad, Watcher.Phase.cleanup], none) :=
  (processTarball_fatal_vs_bestEffort _ _ _).2.2.2 rfl (by decide) (by decide)
    (by decide)

/-- C7: a filesystem event whose path does not end in `.tar` triggers no
phase of the reconciliation cycle; for a `.tar` path an event with neither
the create nor the write bit triggers nothing; and any two events with the
same path whose create-or-write triggering status agrees are handled
identically. -/
theorem handleFileEvent_filters (cfg : Watcher.WatcherConfig)
    (w : Watcher.WatchWorld) (event : Watcher.FileEvent) :
    (Watcher.goHasSuffix event.name ".tar" = false →
      Watcher.handleFileEvent cfg w event = []) ∧
    (event.op.create = false → event.op.write = false →
      Watcher.handleFileEvent cfg w event = []) ∧
    (∀ other : Watcher.FileEvent, event.name = other.name →
      (event.op.create || event.op.write) =
        (other.op.create || other.op.write) →
      Watcher.handleFileEvent cfg w event =
        Watcher.handleFileEvent cfg w other) := by
  refine ⟨fun hsuf => ?_, fun hc hw => ?_, fun other hn hop => ?_⟩
  · simp [Watcher.handleFileEvent, hsuf]
  · simp [Watcher.handleFileEvent, hc, hw]
  · simp only [Watcher.handleFileEvent, hn, hop]

/-- Witness for C7: a non-`.tar` path triggers nothing; a chmod-only event
on a `.tar` path triggers nothing; a create-only and a write-only event on
the same `.tar` path are processed identically. -/
theorem handleFileEvent_filters_witness :
    Watcher.handleFileEvent
      ⟨"/watch", "web", [], [], [], [], [], ""⟩
      ⟨fun _ => true, fun _ => ⟨"", false, none⟩, fun _ => none⟩
      ⟨"/watch/readme.txt", ⟨true, true, false, false, false⟩⟩ = [] ∧
    Watcher.handleFileEvent
      ⟨"/watch", "web", [], [], [], [], [], ""⟩
      ⟨fun _ => true, fun _ => ⟨"", false, none⟩, fun _ => none⟩
      ⟨"/watch/app.tar", ⟨false, false, false, false, true⟩⟩ = [] ∧
    Watcher.handleFileEvent
      ⟨"/watch", "web", [], [], [], [], [], ""⟩
      ⟨fun _ => true, fun _ => ⟨"", false, none⟩, fun _ => none⟩
      ⟨"/watch/app.tar", ⟨true, false, false, false, false⟩⟩ =
    Watcher.handleFileEvent
      ⟨"/watch", "web", [], [], [], [], [], ""⟩
      ⟨fun _ => true, fun _ => ⟨"", false, none⟩, fun _ => none⟩
      ⟨"/watch/app.tar", ⟨false, true, false, false, false⟩⟩ :=
  ⟨(handleFileEvent_filters _ _ _).1 (by decide),
    (handleFileEvent_filters _ _ _).2.1 rfl rfl,
    (handleFileEvent_filters _ _ _).2.2 _ rfl rfl⟩

/-- Folding flag-appends over a list renders each value after the seed, in
list order. -/
theorem foldl_append_renderList (flag : String) (l : List String)
    (s : String) :
    l.foldl (fun acc x => acc ++ flag ++ x) s =
      s ++ Watcher.renderList flag l := by
  induction l generalizing s with
  | nil => simp [Watcher.renderList, String.append_empty]
  | cons x rest ih =>
    rw [List.foldl_cons, ih, Watcher.renderList]
    simp [String.append_assoc]

/-- C3: the container-start step issues exactly the built run command, and
that command names the configured container, carries the configured
restart policy (when one is set), lists every configured port, environment
and volume binding in configuration order, and ends with the image
reference recovered from the managed container name. -/
theorem buildDockerRunCommand_spec (cfg : Watcher.WatcherConfig)
    (w : Watcher.WatchWorld) :
    (Watcher.startContainer cfg w).1 = Watcher.buildDockerRunCommand cfg ∧
    Watcher.buildDockerRunCommand cfg =
      "docker run -d" ++ " --name " ++ cfg.containerName ++
        (if cfg.restartPolicy = "" then ""
         else " --restart " ++ cfg.restartPolicy) ++
        Watcher.renderList " -p " cfg.containerPort ++
        Watcher.renderList " -e " cfg.containerEnv ++
        Watcher.renderList " -v " cfg.containerVolumes ++
        " " ++ Watcher.extractImageNameFromTarball cfg ∧
    Watcher.extractImageNameFromTarball cfg = cfg.containerName := by
  refine ⟨rfl, ?_, rfl⟩
  simp only [Watcher.buildDockerRunCommand, Watcher.extractImageNameFromTarball]
  rw [foldl_append_renderList, foldl_append_renderList, foldl_append_renderList]
  by_cases hr : cfg.restartPolicy = ""
  · rw [if_neg (by simp [hr]), if_pos hr]
    simp [String.append_assoc, String.append_empty]
  · rw [if_pos hr, if_neg hr]
    simp [String.append_assoc]

/-- C2: when the export command exits successfully but the archive file is
absent from disk afterwards, `createTarball` fails with the
missing-archive error, the whole run fails, and the upload step never
runs. -/
theorem createTarball_postcondition (cfg : Uploader.UploaderConfig)
    (w : Uploader.UpWorld)
    (hpre : (Uploader.executePreBuildCommands cfg w).2 = none)
    (hbuild : Uploader.buildDockerImage cfg w = none)
    (hdir : cfg.tarballPath ≠ "" → w.ensureDirErr cfg.tarballPath = none)
    (hsave : (Utils.ExecuteCommand (Uploader.saveCmdOf cfg w) (10 * 60)
      (w.env (Uploader.saveCmdOf cfg w))).2 = none)
    (hmiss : w.fileExists (Uploader.tarballDest cfg w) = false) :
    Uploader.createTarball cfg w =
      Except.error (Uploader.TarErr.notCreated (Uploader.tarballDest cfg w)) ∧
    Uploader.Run cfg w =
      ([Uploader.UpPhase.preBuild, Uploader.UpPhase.build,
        Uploader.UpPhase.createTar],
        some (Uploader.RunErr.tarballFailed
          (Uploader.TarErr.notCreated (Uploader.tarballDest cfg w)))) ∧
    Uploader.UpPhase.upload ∉ (Uploader.Run cfg w).1 := by
  have hct : Uploader.createTarball cfg w =
      Except.error (Uploader.TarErr.notCreated (Uploader.tarballDest cfg w)) := by
    by_cases ht : cfg.tarballPath = ""
    · simp [Uploader.createTarball, ht, hsave, hmiss]
    · simp [Uploader.createTarball, ht, hdir ht, hsave, hmiss]
  refine ⟨hct, ?_, ?_⟩
  · simp [Uploader.Run, hpre, hbuild, hct]
  · simp [Uploader.Run, hpre, hbuild, hct]

/-- Witness for C2: a run whose hooks, build and export command all
succeed but whose archive file is missing afterwards fails at the export
postcondition and never reaches the upload step. -/
theorem createTarball_postcondition_witness :
    Uploader.createTarball sampleUpCfg sampleUpWorldMissing =
      Except.error
        (Uploader.TarErr.notCreated "web_latest_20240101-000000.tar") ∧
    Uploader.UpPhase.upload ∉
      (Uploader.Run sampleUpCfg sampleUpWorldMissing).1 :=
  ⟨(createTarball_postcondition sampleUpCfg sampleUpWorldMissing rfl rfl
      (fun _ => rfl) rfl rfl).1,
    (createTarball_postcondition sampleUpCfg sampleUpWorldMissing rfl rfl
      (fun _ => rfl) rfl rfl).2.2⟩

/-- C8: a run whose upload step fails terminates with an error without
reaching the cleanup step, so the local archive is left in place; and
whenever the cleanup step runs at all, the upload and the post-build hooks
succeeded first. -/
theorem Run_upload_failure_keeps_archive (cfg : Uploader.UploaderConfig)
    (w : Uploader.UpWorld) :
    (∀ path e, (Uploader.executePreBuildCommands cfg w).2 = none →
      Uploader.buildDockerImage cfg w = none →
      Uploader.createTarball cfg w = Except.ok path →
      Uploader.uploadTarball cfg w path = some e →
      Uploader.Run cfg w =
        ([Uploader.UpPhase.preBuild, Uploader.UpPhase.build,
          Uploader.UpPhase.createTar, Uploader.UpPhase.upload],
          some (Uploader.RunErr.uploadFailed e)) ∧
      Uploader.UpPhase.cleanup ∉ (Uploader.Run cfg w).1) ∧
    (Uploader.UpPhase.cleanup ∈ (Uploader.Run cfg w).1 →
      (Uploader.Run cfg w).2 = none ∧
      ∃ path, Uploader.createTarball cfg w = Except.ok path ∧
        Uploader.uploadTarball cfg w path = none ∧
        (Uploader.executePostBuildCommands cfg w).2 = none) := by
  constructor
  · intro path e hpre hbuild hct hup
    constructor
    · simp [Uploader.Run, hpre, hbuild, hct, hup]
    · simp [Uploader.Run, hpre, hbuild, hct, hup]
  · intro hmem
    rcases hpre : (Uploader.executePreBuildCommands cfg w).2 with _ | e
    · rcases hbuild : Uploader.buildDockerImage cfg w with _ | e
      · rcases hct : Uploader.createTarball cfg w with e | path
        · exfalso
          simp [Uploader.Run, hpre, hbuild, hct] at hmem
        · rcases hup : Uploader.uploadTarball cfg w path with _ | e
          · rcases hpost : (Uploader.executePostBuildCommands cfg w).2 with _ | e
            · exact ⟨by simp [Uploader.Run, hpre, hbuild, hct, hup, hpost],
                path, rfl, hup, rfl⟩
            · exfalso
              simp [Uploader.Run, hpre, hbuild, hct, hup, hpost] at hmem
          · exfalso
            simp [Uploader.Run, hpre, hbuild, hct, hup] at hmem
      · exfalso
        simp [Uploader.Run, hpre, hbuild] at hmem
    · exfalso
      simp [Uploader.Run, hpre] at hmem

/-- Witness for C8: a run in which the remote peer reports a non-zero
exit fails with the upload error and never reaches the cleanup step. -/
theorem Run_upload_failure_keeps_archive_witness :
    Uploader.Run sampleUpCfg sampleUpWorldUploadFail =
      ([Uploader.UpPhase.preBuild, Uploader.UpPhase.build,
        Uploader.UpPhase.createTar, Uploader.UpPhase.upload],
        some (Uploader.RunErr.uploadFailed
          (Uploader.UploadErr.scpFailed
            (Uploader.ScpErr.waitFailed "exit status 1")))) :=
  ((Run_upload_failure_keeps_archive sampleUpCfg sampleUpWorldUploadFail).1
    "web_latest_20240101-000000.tar"
    (Uploader.UploadErr.scpFailed
      (Uploader.ScpErr.waitFailed "exit status 1"))
    rfl rfl rfl rfl).1

/-- C4: when every step succeeds, `scpUpload` writes to the session's
input stream exactly one header line — `C`, the permission bits in octal,
the byte length and the base filename, newline-terminated — then the raw
file bytes verbatim, then a single trailing null byte, and it closes the
input side and waits for the remote peer; conversely a successful return
is only possible when no step (including the remote peer's exit) failed,
so any I/O error or non-zero remote exit yields a transfer failure. -/
theorem scpUpload_protocol (localPath remoteUploadPath : String)
    (f : Uploader.ScpFile) (w : Uploader.ScpWorld) :
    (Uploader.scpOk w = true →
      Uploader.scpUpload localPath remoteUploadPath f w =
        (⟨["C" ++ Uploader.goAltOctal f.perm ++ " " ++
            toString f.content.length ++ " " ++ Uploader.goBase localPath ++
            "\n", f.content, String.mk [Char.ofNat 0]], true, true⟩,
          none)) ∧
    ((Uploader.scpUpload localPath remoteUploadPath f w).2 = none →
      Uploader.scpOk w = true) := by
  constructor
  · intro h
    simp only [Uploader.scpOk, Bool.and_eq_true,
      Option.isNone_iff_eq_none] at h
    obtain ⟨⟨⟨⟨⟨⟨⟨⟨h1, h2⟩, h3⟩, h4⟩, h5⟩, h6⟩, h7⟩, h8⟩, h9⟩ := h
    simp [Uploader.scpUpload, h1, h2, h3, h4, h5, h6, h7, h8, h9]
  · intro h
    rcases w with ⟨o, st, se, sd, sa, wh, cp, wm, wa⟩
    rcases o with _ | e
    all_goals rcases st with _ | e
    all_goals rcases se with _ | e
    all_goals rcases sd with _ | e
    all_goals rcases sa with _ | e
    all_goals rcases wh with _ | e
    all_goals rcases cp with _ | e
    all_goals rcases wm with _ | e
    all_goals rcases wa with _ | e
    all_goals simp_all [Uploader.scpUpload, Uploader.scpOk]

/-- Witness for C4: pushing a five-byte file with permission bits `0644`
writes the header `C0644 5 app_v1.tar\n`, the bytes, and the null marker,
then closes and waits, with no error. -/
theorem scpUpload_protocol_witness :
    Uploader.scpOk ⟨none, none, none, none, none, none, none, none, none⟩ =
      true ∧
    Uploader.scpUpload "/tmp/builds/app_v1.tar" "/opt/docker-uploads"
      ⟨420, "hello"⟩ ⟨none, none, none, none, none, none, none, none, none⟩ =
      (⟨["C0644 5 app_v1.tar\n", "hello", String.mk [Char.ofNat 0]],
        true, true⟩, none) :=
  ⟨rfl,
    by
      have h := (scpUpload_protocol "/tmp/builds/app_v1.tar"
        "/opt/docker-uploads" ⟨420, "hello"⟩
        ⟨none, none, none, none, none, none, none, none, none⟩).1 rfl
      simpa using h⟩

/-- C9: with the private key readable and the dial succeeding, a missing
known-hosts store — or one that fails to load — still yields an
established session, after a logged warning, with the callback that
performs no host-identity verification; when the store loads, the session
checks host identity against it with no warning. -/
theorem createSSHClient_hostkey (cfg : Uploader.UploaderConfig)
    (w : Uploader.SSHWorld)
    (hkey : cfg.remoteKeyPath ≠ "" →
      w.readKeyErr = none ∧ w.parseKeyErr = none)
    (hdial : w.dialErr = none) :
    (w.knownHostsExists = false →
      Uploader.createSSHClient cfg w =
        (["known_hosts file not found, using insecure connection"],
          Except.ok Uploader.HostKeyCallback.insecureIgnoreHostKey)) ∧
    (∀ e, w.knownHostsExists = true → w.knownHostsLoadErr = some e →
      Uploader.createSSHClient cfg w =
        (["Failed to load known_hosts, using insecure connection"],
          Except.ok Uploader.HostKeyCallback.insecureIgnoreHostKey)) ∧
    (w.knownHostsExists = true → w.knownHostsLoadErr = none →
      Uploader.createSSHClient cfg w =
        ([], Except.ok Uploader.HostKeyCallback.knownHosts)) := by
  have hpick : (if cfg.remoteKeyPath ≠ "" then
      match w.readKeyErr with
      | some e => some (Uploader.SSHErr.readKeyFailed e)
      | none =>
        match w.parseKeyErr with
        | some e => some (Uploader.SSHErr.parseKeyFailed e)
        | none => none
    else none) = none := by
    by_cases hk : cfg.remoteKeyPath = ""
    · simp [hk]
    · obtain ⟨h1, h2⟩ := hkey hk
      simp [hk, h1, h2]
  refine ⟨fun hkh => ?_, fun e hkh hload => ?_, fun hkh hload => ?_⟩ <;>
    simp [Uploader.createSSHClient, hpick, hkh, hdial]
  · simp [hload]
  · simp [hload]

/-- Witness for C9: a configuration with a key, no known-hosts store and a
successful dial establishes the session with the insecure callback after
the warning. -/
theorem createSSHClient_hostkey_witness :
    Uploader.createSSHClient
      ⟨"./app", "web", "latest", "", "host", 22, "deploy",
        "/home/d/.ssh/id_rsa", "/up", "", [], []⟩
      ⟨none, none, false, none, none⟩ =
      (["known_hosts file not found, using insecure connection"],
        Except.ok Uploader.HostKeyCallback.insecureIgnoreHostKey) :=
  (createSSHClient_hostkey
    ⟨"./app", "web", "latest", "", "host", 22, "deploy",
      "/home/d/.ssh/id_rsa", "/up", "", [], []⟩
    ⟨none, none, false, none, none⟩
    (fun _ => ⟨rfl, rfl⟩) rfl).1 rfl

end Theorems
